import Mathlib

/-!
Verification of the `servers` package core: the generic service lifecycle
(`Server.Start`, `Server.Stop`, `Server.serve`) and the per-client rate
limiter (`PerClientRateLimiter`).

The Go code is shallowly embedded: mutex-guarded critical sections become
pure state-passing functions (the mutex linearizes all executions, so any
concurrent execution is some sequential interleaving of these steps);
the outcome of `net.Listen` is a parameter; the buffered `AddrAssigned` channel
is modelled as the list of values sent to it; errors become `Option`s.
-/

namespace Servers

/-- A bound network listener (`net.Listener`): its textual address and
whether it has been closed.  `Close` on an already-closed TCP listener
returns an error (ignored by the caller in the source) and does not
transition again. -/
structure Listener where
  addr : String
  closed : Bool
deriving DecidableEq, Repr

/-- `net.Listener.Close`: the returned `Bool` is `true` when this call
actually transitioned the listener from open to closed (a `nil` error in
Go), `false` when the listener was already closed (Go returns an
`ErrClosed`-style error, which `Server.Stop` discards). -/
def Listener.Close (l : Listener) : Listener × Bool :=
  if l.closed then (l, false) else ({ l with closed := true }, true)

/-- `Config` from the source: name, host, port, and the private
`shouldCloseListener` ownership flag. -/
structure Config where
  name : String
  host : String
  port : Nat
  shouldCloseListener : Bool
deriving DecidableEq, Repr

/-- `Server` state: the fields of the Go struct that the lifecycle logic
reads or writes.  `AddrAssigned` is `none` when the channel was not
configured, and `some sent` with `sent` the list of values sent to the
buffered channel so far.  The shutdown-coordination channels and the
background watcher goroutine are not modelled (no claim concerns them). -/
structure Server where
  config : Config
  AddrAssigned : Option (List String)
  listener : Option Listener
  addr : String
  started : Bool
  stopped : Bool
deriving DecidableEq, Repr

/-- An `Option` in the source is a `func(srv any)`; only its action on a
`*Server` matters here. -/
def ServerOption : Type := Server → Server

/-- `WithAddrAssigned`: installs the one-slot address channel (no value
sent yet). -/
def WithAddrAssigned : ServerOption :=
  fun s => { s with AddrAssigned := some [] }

/-- `WithListener l shouldCloseListener`: pre-supplies a listener, records
whether the lifecycle takes ownership, and sets the resolved address. -/
def WithListener (l : Listener) (shouldCloseListener : Bool) : ServerOption :=
  fun s =>
    { s with
      listener := some l
      config := { s.config with shouldCloseListener := shouldCloseListener }
      addr := l.addr }

/-- `NewServer`: builds the server from a config, forces
`shouldCloseListener := true`, then applies the options in order. -/
def NewServer (config : Config) (opts : List ServerOption) : Server :=
  opts.foldl (fun s o => o s)
    { config := { config with shouldCloseListener := true }
      AddrAssigned := none
      listener := none
      addr := ""
      started := false
      stopped := false }

/-- The distinct start-failure error (`ErrListenerFailedStart` wrapped via
`fmt.Errorf("%w: %v", ...)`): the constructor is the sentinel, the carried
string is the underlying transport error. -/
inductive StartErr where
  | listenerFailedStart (underlying : String)
deriving DecidableEq, Repr

/-- What a single `Start` call did: whether it opened a listener via
`net.Listen`, and whether it sent a value on `AddrAssigned`. -/
structure StartEvents where
  opened : Bool
  published : Bool
deriving DecidableEq, Repr

/-- `srv.AddrAssigned <- srv.addr` guarded by `srv.AddrAssigned != nil`:
sends the resolved address on the channel when it is configured.  Returns
whether a value was sent. -/
def Server.publishAddr (srv : Server) : Server × Bool :=
  match srv.AddrAssigned with
  | none => (srv, false)
  | some sent => ({ srv with AddrAssigned := some (sent ++ [srv.addr]) }, true)

/-- `Server.Start`, with the whole body under the state mutex as in the
source.  `bind` is the outcome `net.Listen("tcp", host:port)` would have
(`.ok` a fresh open listener, `.error` the transport error message); it is
only consulted when the source actually calls `net.Listen`. -/
def Server.Start (srv : Server) (bind : Except String Listener) :
    Server × Option StartErr × StartEvents :=
  if srv.started then (srv, none, ⟨false, false⟩)
  else
    let srv1 := { srv with started := true }
    match srv1.listener, bind with
    | none, .error e => (srv1, some (.listenerFailedStart e), ⟨false, false⟩)
    | none, .ok lis =>
        let srv2 := { srv1 with listener := some lis, addr := lis.addr }
        let (srv3, pub) := srv2.publishAddr
        (srv3, none, ⟨true, pub⟩)
    | some _, _ =>
        let (srv3, pub) := srv1.publishAddr
        (srv3, none, ⟨false, pub⟩)

/-- Runs a sequence of `Start` calls (one per bind outcome), returning the
final state, the total number of listeners opened, the total number of
address publications, and the per-call error results. -/
def Server.runStarts (srv : Server) :
    List (Except String Listener) → Server × Nat × Nat × List (Option StartErr)
  | [] => (srv, 0, 0, [])
  | b :: bs =>
      let (srv1, err, ev) := srv.Start b
      let (srv2, opens, pubs, errs) := srv1.runStarts bs
      (srv2, (if ev.opened then 1 else 0) + opens,
        (if ev.published then 1 else 0) + pubs, err :: errs)

/-- `Server.Stop`: mark `stopped` under the mutex, then
`if srv.listener != nil && srv.config.shouldCloseListener { srv.listener.Close() }`.
The returned `Bool` is `true` exactly when this call transitioned the
listener from open to closed. -/
def Server.Stop (srv : Server) : Server × Bool :=
  let srv1 := { srv with stopped := true }
  match srv1.listener, srv1.config.shouldCloseListener with
  | some l, true =>
      let (lc, t) := l.Close
      ({ srv1 with listener := some lc }, t)
  | _, _ => (srv1, false)

/-- Runs `Stop` `n` times in sequence, counting how many of the calls
actually transitioned the listener to closed. -/
def Server.runStops (srv : Server) : Nat → Server × Nat
  | 0 => (srv, 0)
  | n + 1 =>
      let (srv1, t) := srv.Stop
      let (srv2, c) := srv1.runStops n
      (srv2, (if t then 1 else 0) + c)

/-- `Server.serve`: classify the result of the blocking `s.Serve(lis)`
call, given as `serveErr` (`none` for a `nil` error).  A non-`nil` error is
suppressed exactly when `stopped` is observed `true` under the mutex. -/
def Server.serve (srv : Server) (serveErr : Option String) : Option String :=
  match serveErr with
  | none => none
  | some err => if srv.stopped then none else some err

/-! ## Per-client rate limiter (`grpc_rate_limiter.go`) -/

/-- Modelled from the spec: the token-bucket limiter of the external
library `golang.org/x/time/rate` (not part of this repository), following
the standard continuous-refill token-bucket semantics of the spec: tokens
accrue continuously at `rps` per second up to `burst`, each allowed call
consumes exactly one token, and a denied call consumes nothing.  Time is a
rational number of seconds; `tokens` is the balance at instant `last`.  A
fresh limiter starts with a full bucket (observable behavior of
`rate.NewLimiter`). -/
structure Limiter where
  rps : ℚ
  burst : Nat
  tokens : ℚ
  last : ℚ
deriving DecidableEq, Repr

/-- Modelled from the spec: `rate.NewLimiter(rate.Limit(rps), burst)` — a
full bucket at time `0`. -/
def NewLimiter (rps : ℚ) (burst : Nat) : Limiter :=
  { rps := rps, burst := burst, tokens := (burst : ℚ), last := 0 }

/-- Modelled from the spec: `limiter.Allow()` evaluated at instant `t`:
advance the balance by the elapsed time (capped at `burst`); if at least
one token is available, consume it and allow, otherwise deny with the
limiter unchanged (zero tokens consumed). -/
def Limiter.Allow (l : Limiter) (t : ℚ) : Limiter × Bool :=
  let tok := min (l.burst : ℚ) (l.tokens + (t - l.last) * l.rps)
  if 1 ≤ tok then ({ l with tokens := tok - 1, last := t }, true)
  else (l, false)

/-- Issues `n` consecutive `Allow` checks, all at the same instant `t`
(the negligible time window of the spec), collecting the results. -/
def Limiter.allowN (l : Limiter) (t : ℚ) : Nat → Limiter × List Bool
  | 0 => (l, [])
  | n + 1 =>
      let (l1, ok) := l.Allow t
      let (l2, results) := l1.allowN t n
      (l2, ok :: results)

/-- Association-list lookup, the model of a Go map read `m[k]`. -/
def lookupKey {α : Type} (k : String) : List (String × α) → Option α
  | [] => none
  | (k1, v) :: rest => if k1 = k then some v else lookupKey k rest

/-- In-place update of the entry at key `k`, the model of writing through
the `*rate.Limiter` pointer stored in the map. -/
def updateKey {α : Type} (k : String) (v : α) :
    List (String × α) → List (String × α)
  | [] => []
  | (k1, v1) :: rest =>
      if k1 = k then (k1, v) :: rest else (k1, v1) :: updateKey k v rest

/-- `PerClientRateLimiter`: the map from client identity to its limiter
(an association list preserving insertion order; the mutex linearizes all
accesses) and the fixed per-limiter parameters. -/
structure PerClientRateLimiter where
  clients : List (String × Limiter)
  rps : ℚ
  burst : Nat
deriving DecidableEq, Repr

/-- `NewPerClientRateLimiter`: empty map, fixed `(rps, burst)`. -/
def NewPerClientRateLimiter (rps : ℚ) (burst : Nat) : PerClientRateLimiter :=
  { clients := [], rps := rps, burst := burst }

/-- `getLimiter`: the whole lookup-or-create under the registry mutex.
Returns the (possibly grown) registry and the limiter for `clientID`. -/
def PerClientRateLimiter.getLimiter (r : PerClientRateLimiter)
    (clientID : String) : PerClientRateLimiter × Limiter :=
  match lookupKey clientID r.clients with
  | some limiter => (r, limiter)
  | none =>
      let limiter := NewLimiter r.rps r.burst
      ({ r with clients := r.clients ++ [(clientID, limiter)] }, limiter)

/-- The admission step of the interceptor body:
`limiter := r.getLimiter(clientID); limiter.Allow()` at instant `t`, with
the new limiter state written back through the shared pointer. -/
def PerClientRateLimiter.allowFor (r : PerClientRateLimiter)
    (clientID : String) (t : ℚ) : PerClientRateLimiter × Bool :=
  let (r1, limiter) := r.getLimiter clientID
  let (l1, ok) := limiter.Allow t
  ({ r1 with clients := updateKey clientID l1 r1.clients }, ok)

/-- Runs a sequence of admission checks, each a `(clientID, instant)`
pair, collecting the allow/deny results. -/
def PerClientRateLimiter.runChecks (r : PerClientRateLimiter) :
    List (String × ℚ) → PerClientRateLimiter × List Bool
  | [] => (r, [])
  | (c, t) :: rest =>
      let (r1, ok) := r.allowFor c t
      let (r2, results) := r1.runChecks rest
      (r2, ok :: results)

/-! ## Unary interceptor (`grpc_rate_limiter.go`, `getClientID`) -/

/-- Incoming gRPC metadata (`metadata.MD`): keys mapped to lists of
values.  `Option MD` models the presence flag of `metadata.FromIncomingContext`
flag. -/
def MD : Type := List (String × List String)

/-- The sentinel identity used when no client id can be extracted. -/
def unknownClient : String := "unknown-client"

/-- `getClientID`: read the `"client-id"` key from the incoming metadata;
take the first value when the key exists with a non-empty list, otherwise
fall back to the sentinel (also when metadata is absent). -/
def getClientID (md : Option MD) : String :=
  match md with
  | none => unknownClient
  | some m =>
      match lookupKey "client-id" m with
      | some clientIDs =>
          match clientIDs with
          | c :: _ => c
          | [] => unknownClient
      | none => unknownClient

/-- gRPC status codes used by this component. -/
inductive Code where
  | ok
  | resourceExhausted
deriving DecidableEq, Repr

/-- The observable content of an error built by `Error(c, msg, details)`:
its code, the (unformatted) message string, and the merged details map
attached as structured context. -/
structure GrpcError where
  code : Code
  msg : String
  details : List (String × String)
deriving DecidableEq, Repr

/-- The denial error of the interceptor:
`Error(codes.ResourceExhausted, "rate limit exceeded for client: %s", map[string]string{"client": clientID})`. -/
def rateLimitError (clientID : String) : GrpcError :=
  { code := .resourceExhausted
    msg := "rate limit exceeded for client: %s"
    details := [("client", clientID)] }

/-- `UnaryServerInterceptor`: the closure handling one inbound unary
request.  `md` is the incoming metadata of the request context, `t` the instant
of the admission check, `req` the request, and `handler` the wrapped
handler (receiving the context metadata and the request, returning a
response and an error).  Returns the updated registry and the
`(resp, err)` pair the interceptor returns. -/
def PerClientRateLimiter.UnaryServerInterceptor {α β : Type}
    (r : PerClientRateLimiter) (md : Option MD) (t : ℚ) (req : α)
    (handler : Option MD → α → Option β × Option GrpcError) :
    PerClientRateLimiter × (Option β × Option GrpcError) :=
  let clientID := getClientID md
  let (r1, ok) := r.allowFor clientID t
  if ok then (r1, handler md req)
  else (r1, (none, some (rateLimitError clientID)))

/-- A concrete configuration used to evaluate the lifecycle theorems. -/
def sampleConfig : Config :=
  { name := "svc", host := "localhost", port := 8080, shouldCloseListener := true }

/-- A concrete open listener used to evaluate the lifecycle theorems. -/
def sampleListener : Listener := { addr := "127.0.0.1:8080", closed := false }

/-! ## Helper lemmas -/

theorem Start_of_started (srv : Server) (b : Except String Listener)
    (h : srv.started = true) : srv.Start b = (srv, none, ⟨false, false⟩) := by
  simp [Server.Start, h]

theorem runStarts_of_started (srv : Server) (bs : List (Except String Listener))
    (h : srv.started = true) :
    srv.runStarts bs = (srv, 0, 0, List.replicate bs.length none) := by
  induction bs with
  | nil => simp [Server.runStarts]
  | cons b rest ih =>
      simp [Server.runStarts, Start_of_started srv b h, ih, List.replicate_succ]

theorem lookupKey_append_self {α : Type} (k : String) (v : α)
    (xs : List (String × α)) (h : lookupKey k xs = none) :
    lookupKey k (xs ++ [(k, v)]) = some v := by
  induction xs with
  | nil => simp [lookupKey]
  | cons p rest ih =>
      obtain ⟨k1, v1⟩ := p
      by_cases hk : k1 = k
      · simp [lookupKey, hk] at h
      · simp [lookupKey, hk] at h ⊢
        exact ih h

theorem lookupKey_append_ne {α : Type} (a b : String) (v : α)
    (xs : List (String × α)) (h : a ≠ b) :
    lookupKey b (xs ++ [(a, v)]) = lookupKey b xs := by
  induction xs with
  | nil => simp [lookupKey, h]
  | cons p rest ih =>
      obtain ⟨k1, v1⟩ := p
      by_cases hk : k1 = b <;> simp [lookupKey, hk, ih]

theorem lookupKey_updateKey_ne {α : Type} (a b : String) (v : α)
    (xs : List (String × α)) (h : a ≠ b) :
    lookupKey b (updateKey a v xs) = lookupKey b xs := by
  induction xs with
  | nil => simp [lookupKey, updateKey]
  | cons p rest ih =>
      obtain ⟨k1, v1⟩ := p
      by_cases hk : k1 = a
      · subst hk
        simp [lookupKey, updateKey, h]
      · by_cases hb : k1 = b <;>
          simp [lookupKey, updateKey, hk, hb, ih, Ne.symm h]

theorem updateKey_map_fst {α : Type} (k : String) (v : α)
    (xs : List (String × α)) :
    (updateKey k v xs).map Prod.fst = xs.map Prod.fst := by
  induction xs with
  | nil => simp [updateKey]
  | cons p rest ih =>
      obtain ⟨k1, v1⟩ := p
      by_cases hk : k1 = k <;> simp [updateKey, hk, ih]

theorem lookupKey_none_iff {α : Type} (k : String) (xs : List (String × α)) :
    lookupKey k xs = none ↔ k ∉ xs.map Prod.fst := by
  induction xs with
  | nil => simp [lookupKey]
  | cons p rest ih =>
      obtain ⟨k1, v1⟩ := p
      by_cases hk : k1 = k
      · subst hk
        simp [lookupKey]
      · simp [lookupKey, hk, ih, Ne.symm hk]

theorem getLimiter_eq_some (r : PerClientRateLimiter) (a : String) (l : Limiter)
    (h : lookupKey a r.clients = some l) : r.getLimiter a = (r, l) := by
  unfold PerClientRateLimiter.getLimiter
  rw [h]

theorem getLimiter_eq_none (r : PerClientRateLimiter) (a : String)
    (h : lookupKey a r.clients = none) :
    r.getLimiter a
      = ({ r with clients := r.clients ++ [(a, NewLimiter r.rps r.burst)] },
         NewLimiter r.rps r.burst) := by
  unfold PerClientRateLimiter.getLimiter
  rw [h]

theorem allowFor_eq (r : PerClientRateLimiter) (a : String) (t : ℚ) :
    r.allowFor a t
      = ({ (r.getLimiter a).1 with
            clients := updateKey a (((r.getLimiter a).2).Allow t).1
              (r.getLimiter a).1.clients },
         (((r.getLimiter a).2).Allow t).2) := by
  unfold PerClientRateLimiter.allowFor
  rcases hg : r.getLimiter a with ⟨r1, limiter⟩
  rcases hA : limiter.Allow t with ⟨l1, ok⟩
  simp only [hA]

theorem allowFor_clients_some (r : PerClientRateLimiter) (a : String) (t : ℚ)
    (l : Limiter) (h : lookupKey a r.clients = some l) :
    (r.allowFor a t).1.clients = updateKey a (l.Allow t).1 r.clients := by
  rw [allowFor_eq, getLimiter_eq_some r a l h]

theorem allowFor_clients_none (r : PerClientRateLimiter) (a : String) (t : ℚ)
    (h : lookupKey a r.clients = none) :
    (r.allowFor a t).1.clients
      = updateKey a ((NewLimiter r.rps r.burst).Allow t).1
          (r.clients ++ [(a, NewLimiter r.rps r.burst)]) := by
  rw [allowFor_eq, getLimiter_eq_none r a h]

theorem allowFor_ok_some (r : PerClientRateLimiter) (a : String) (t : ℚ)
    (l : Limiter) (h : lookupKey a r.clients = some l) :
    (r.allowFor a t).2 = (l.Allow t).2 := by
  rw [allowFor_eq, getLimiter_eq_some r a l h]

theorem allowFor_ok_none (r : PerClientRateLimiter) (a : String) (t : ℚ)
    (h : lookupKey a r.clients = none) :
    (r.allowFor a t).2 = ((NewLimiter r.rps r.burst).Allow t).2 := by
  rw [allowFor_eq, getLimiter_eq_none r a h]

theorem allowFor_params (r : PerClientRateLimiter) (a : String) (t : ℚ) :
    (r.allowFor a t).1.rps = r.rps ∧ (r.allowFor a t).1.burst = r.burst := by
  rw [allowFor_eq]
  rcases h : lookupKey a r.clients with _ | l
  · rw [getLimiter_eq_none r a h]
    exact ⟨rfl, rfl⟩
  · rw [getLimiter_eq_some r a l h]
    exact ⟨rfl, rfl⟩

theorem allowFor_lookup_ne (r : PerClientRateLimiter) (a b : String) (t : ℚ)
    (h : a ≠ b) :
    lookupKey b ((r.allowFor a t).1.clients) = lookupKey b r.clients := by
  rcases hl : lookupKey a r.clients with _ | l
  · rw [allowFor_clients_none r a t hl,
      lookupKey_updateKey_ne a b _ _ h, lookupKey_append_ne a b _ _ h]
  · rw [allowFor_clients_some r a t l hl, lookupKey_updateKey_ne a b _ _ h]

theorem allowFor_congr (r1 r2 : PerClientRateLimiter) (b : String) (t : ℚ)
    (hr : r1.rps = r2.rps) (hb : r1.burst = r2.burst)
    (hl : lookupKey b r1.clients = lookupKey b r2.clients) :
    (r1.allowFor b t).2 = (r2.allowFor b t).2 := by
  rcases h : lookupKey b r1.clients with _ | l <;> rw [h] at hl
  · rw [allowFor_ok_none r1 b t h, allowFor_ok_none r2 b t hl.symm, hr, hb]
  · rw [allowFor_ok_some r1 b t l h, allowFor_ok_some r2 b t l hl.symm]

theorem allowFor_keys_nodup (r : PerClientRateLimiter) (a : String) (t : ℚ)
    (h : (r.clients.map Prod.fst).Nodup) :
    (((r.allowFor a t).1.clients).map Prod.fst).Nodup := by
  rcases hl : lookupKey a r.clients with _ | l
  · rw [allowFor_clients_none r a t hl, updateKey_map_fst]
    have ha : a ∉ r.clients.map Prod.fst := (lookupKey_none_iff a r.clients).mp hl
    simp [List.nodup_append, h, ha]
  · rw [allowFor_clients_some r a t l hl, updateKey_map_fst]
    exact h

theorem runChecks_keys_nodup (r : PerClientRateLimiter)
    (trace : List (String × ℚ)) (h : (r.clients.map Prod.fst).Nodup) :
    (((r.runChecks trace).1.clients).map Prod.fst).Nodup := by
  induction trace generalizing r with
  | nil => exact h
  | cons p rest ih =>
      obtain ⟨c, t⟩ := p
      rcases hA : r.allowFor c t with ⟨r1, ok⟩
      rcases hB : r1.runChecks rest with ⟨r2, results⟩
      simp only [PerClientRateLimiter.runChecks, hA, hB]
      have h1 := allowFor_keys_nodup r c t h
      rw [hA] at h1
      have h2 := ih r1 h1
      rw [hB] at h2
      exact h2

theorem Allow_zero_step (R : ℚ) (B k : Nat) (hk : k < B) :
    Limiter.Allow { rps := R, burst := B, tokens := (B : ℚ) - k, last := 0 } 0
      = ({ rps := R, burst := B, tokens := (B : ℚ) - ((k + 1 : ℕ) : ℚ),
           last := 0 }, true) := by
  simp only [Limiter.Allow]
  have h0 : ((B : ℚ) - k) + ((0 : ℚ) - 0) * R = (B : ℚ) - k := by ring
  rw [h0]
  have hmin : min ((B : ℕ) : ℚ) ((B : ℚ) - k) = (B : ℚ) - k :=
    min_eq_right (by
      have : (0 : ℚ) ≤ (k : ℚ) := by positivity
      linarith)
  rw [hmin]
  have h1 : (1 : ℚ) ≤ (B : ℚ) - k := by
    have : (k : ℚ) + 1 ≤ (B : ℚ) := by exact_mod_cast Nat.succ_le_of_lt hk
    linarith
  rw [if_pos h1]
  have h2 : (B : ℚ) - k - 1 = (B : ℚ) - ((k : ℕ) + 1 : ℕ) := by
    push_cast
    ring
  rw [h2]

theorem allowN_drain (R : ℚ) (B : Nat) (n k : Nat) (h : k + n ≤ B) :
    Limiter.allowN { rps := R, burst := B, tokens := (B : ℚ) - k, last := 0 } 0 n
      = ({ rps := R, burst := B, tokens := (B : ℚ) - ((k + n : ℕ) : ℚ),
           last := 0 }, List.replicate n true) := by
  induction n generalizing k with
  | zero => simp [Limiter.allowN]
  | succ m ih =>
      have hk : k < B := by omega
      simp only [Limiter.allowN, Allow_zero_step R B k hk]
      rw [ih (k + 1) (by omega)]
      have hce : k + 1 + m = k + (m + 1) := by omega
      rw [hce, List.replicate_succ]

theorem allowN_full_drain (R : ℚ) (B : Nat) :
    (NewLimiter R B).allowN 0 B
      = ({ rps := R, burst := B, tokens := 0, last := 0 },
         List.replicate B true) := by
  have h := allowN_drain R B B 0 (by omega)
  simp only [Nat.zero_add, Nat.cast_zero, sub_zero, sub_self] at h
  exact h

theorem Allow_empty_zero (R : ℚ) (B : Nat) :
    Limiter.Allow { rps := R, burst := B, tokens := 0, last := 0 } 0
      = ({ rps := R, burst := B, tokens := 0, last := 0 }, false) := by
  simp only [Limiter.Allow]
  have h0 : (0 : ℚ) + ((0 : ℚ) - 0) * R = 0 := by ring
  rw [h0]
  have hmin : min ((B : ℕ) : ℚ) (0 : ℚ) = 0 := min_eq_right (by positivity)
  rw [hmin, if_neg (by norm_num)]

theorem Allow_after_refill (R : ℚ) (B : Nat) (w : ℚ) (hR : 0 < R) (hB : 1 ≤ B)
    (hw : 1 / R ≤ w) :
    Limiter.Allow { rps := R, burst := B, tokens := 0, last := 0 } w
      = ({ rps := R, burst := B, tokens := min ((B : ℕ) : ℚ) (w * R) - 1,
           last := w }, true) := by
  simp only [Limiter.Allow]
  have h0 : (0 : ℚ) + (w - 0) * R = w * R := by ring
  rw [h0]
  have h1 : (1 : ℚ) ≤ min ((B : ℕ) : ℚ) (w * R) := by
    refine le_min (by exact_mod_cast hB) ?_
    have hmul := mul_le_mul_of_nonneg_right hw hR.le
    have hcancel : (1 / R) * R = 1 := by field_simp
    linarith
  rw [if_pos h1]

theorem Allow_refill_then_deny (R : ℚ) (B : Nat) (w : ℚ) (hR : 0 < R)
    (h2 : w < 2 / R) :
    (Limiter.Allow
        { rps := R, burst := B, tokens := min ((B : ℕ) : ℚ) (w * R) - 1,
          last := w } w).2 = false := by
  simp only [Limiter.Allow]
  have h0 : (min ((B : ℕ) : ℚ) (w * R) - 1) + (w - w) * R
      = min ((B : ℕ) : ℚ) (w * R) - 1 := by ring
  rw [h0]
  have hminB : min ((B : ℕ) : ℚ) (w * R) ≤ ((B : ℕ) : ℚ) := min_le_left _ _
  have hmin : min ((B : ℕ) : ℚ) (min ((B : ℕ) : ℚ) (w * R) - 1)
      = min ((B : ℕ) : ℚ) (w * R) - 1 := min_eq_right (by linarith)
  rw [hmin]
  have hlt : min ((B : ℕ) : ℚ) (w * R) < 2 := by
    have hwr : w * R < 2 := by
      have hmul := mul_lt_mul_of_pos_right h2 hR
      have hcancel : (2 / R) * R = 2 := by field_simp
      linarith
    calc min ((B : ℕ) : ℚ) (w * R) ≤ w * R := min_le_right _ _
      _ < 2 := hwr
  rw [if_neg (by linarith)]

theorem interceptor_eq {α β : Type} (r : PerClientRateLimiter)
    (md : Option MD) (t : ℚ) (req : α)
    (handler : Option MD → α → Option β × Option GrpcError) :
    r.UnaryServerInterceptor md t req handler
      = if (r.allowFor (getClientID md) t).2
        then ((r.allowFor (getClientID md) t).1, handler md req)
        else ((r.allowFor (getClientID md) t).1,
              (none, some (rateLimitError (getClientID md)))) := by
  unfold PerClientRateLimiter.UnaryServerInterceptor
  rcases hA : r.allowFor (getClientID md) t with ⟨r1, ok⟩
  simp only [hA]

theorem Stop_open_owned (srv : Server) (l : Listener) (hl : srv.listener = some l)
    (ho : l.closed = false) (hs : srv.config.shouldCloseListener = true) :
    srv.Stop
      = ({ srv with stopped := true, listener := some { l with closed := true } },
         true) := by
  obtain ⟨⟨nm, hh, pp, sc⟩, a, li, ad, st, sp⟩ := srv
  simp only [Server.listener] at hl
  subst hl
  simp only [Server.config] at hs
  subst hs
  simp [Server.Stop, Listener.Close, ho]

theorem Stop_stopped_closed (srv : Server) (l : Listener) (h1 : srv.stopped = true)
    (hl : srv.listener = some l) (hc : l.closed = true) :
    srv.Stop = (srv, false) := by
  obtain ⟨⟨nm, hh, pp, sc⟩, a, li, ad, st, sp⟩ := srv
  simp only [Server.listener] at hl
  subst hl
  simp only [Server.stopped] at h1
  subst h1
  cases sc <;> simp [Server.Stop, Listener.Close, hc]

theorem runStops_fix (srv : Server) (l : Listener) (n : Nat)
    (h1 : srv.stopped = true) (hl : srv.listener = some l) (hc : l.closed = true) :
    srv.runStops n = (srv, 0) := by
  induction n with
  | zero => rfl
  | succ m ih => simp [Server.runStops, Stop_stopped_closed srv l h1 hl hc, ih]

/-! ## Claim theorems -/

/-- C1: when the blocking serve call returns a non-nil error, `serve`
returns no error iff the `stopped` flag is observed `true` under the
mutex, and surfaces the error unchanged otherwise; a nil result from the
underlying `Serve` is always returned as success regardless of the
`stopped` flag. -/
theorem serve_suppresses_only_after_stop (srv : Server) (e : String) :
    srv.serve none = none
    ∧ (srv.stopped = true → srv.serve (some e) = none)
    ∧ (srv.stopped = false → srv.serve (some e) = some e) := by
  refine ⟨rfl, fun h => ?_, fun h => ?_⟩ <;> simp [Server.serve, h]

theorem serve_suppresses_only_after_stop_witness :
    Server.serve
        { config := sampleConfig, AddrAssigned := none, listener := none
          addr := "", started := true, stopped := true } (some "accept: closed")
      = none
    ∧ Server.serve
        { config := sampleConfig, AddrAssigned := none, listener := none
          addr := "", started := true, stopped := false } (some "accept: closed")
      = some "accept: closed" :=
  ⟨(serve_suppresses_only_after_stop
      { config := sampleConfig, AddrAssigned := none, listener := none
        addr := "", started := true, stopped := true } "accept: closed").2.1 rfl,
   (serve_suppresses_only_after_stop
      { config := sampleConfig, AddrAssigned := none, listener := none
        addr := "", started := true, stopped := false } "accept: closed").2.2 rfl⟩

/-- C3: when `net.Listen` fails during `Start` (no pre-supplied listener),
`Start` returns the distinct listener-start error wrapping the underlying
transport error, no listener is opened, and the address notifier is never
signaled on that call (the channel stays empty). -/
theorem start_bind_failure_distinct_error (cfg : Config) (e : String) :
    (NewServer cfg [WithAddrAssigned]).Start (Except.error e)
      = ({ NewServer cfg [WithAddrAssigned] with started := true },
         some (StartErr.listenerFailedStart e), ⟨false, false⟩)
    ∧ ((NewServer cfg [WithAddrAssigned]).Start (Except.error e)).1.AddrAssigned
      = some []
    ∧ ((NewServer cfg [WithAddrAssigned]).Start (Except.error e)).1.listener
      = none := by
  exact ⟨rfl, rfl, rfl⟩

/-- C6: calling `Stop` on a server that has no listener (in particular one
that was never started and had none supplied) takes no close branch: it is
a total, non-blocking no-op on the listener that only marks `stopped`.  A
freshly constructed server indeed has no listener. -/
theorem stop_before_start_safe (cfg : Config) (srv : Server)
    (h : srv.listener = none) :
    (NewServer cfg []).listener = none
    ∧ srv.Stop = ({ srv with stopped := true }, false) := by
  obtain ⟨c, a, li, ad, st, sp⟩ := srv
  simp only [Server.listener] at h
  subst h
  exact ⟨rfl, rfl⟩

/-- C2: `Start` is idempotent — starting from a fresh server with the
address notifier configured, a first call whose bind succeeds followed by
any number of further calls opens the listener exactly once, publishes
exactly one value on the notifier, and every call (the later ones
immediately, with no listener opened and no address published) returns
nil. -/
theorem start_listener_opened_exactly_once (cfg : Config) (lis : Listener)
    (rest : List (Except String Listener)) :
    ((NewServer cfg [WithAddrAssigned]).runStarts (Except.ok lis :: rest)).2.1 = 1
    ∧ ((NewServer cfg [WithAddrAssigned]).runStarts (Except.ok lis :: rest)).2.2.1 = 1
    ∧ ((NewServer cfg [WithAddrAssigned]).runStarts (Except.ok lis :: rest)).2.2.2
      = List.replicate (rest.length + 1) none
    ∧ ((NewServer cfg [WithAddrAssigned]).runStarts (Except.ok lis :: rest)).1.AddrAssigned
      = some [lis.addr]
    ∧ ((NewServer cfg [WithAddrAssigned]).runStarts (Except.ok lis :: rest)).1.listener
      = some lis := by
  have h1 : (NewServer cfg [WithAddrAssigned]).Start (Except.ok lis)
      = ({ config := { cfg with shouldCloseListener := true }
           AddrAssigned := some [lis.addr], listener := some lis
           addr := lis.addr, started := true, stopped := false },
         none, ⟨true, true⟩) := rfl
  have h2 := runStarts_of_started
    { config := { cfg with shouldCloseListener := true }
      AddrAssigned := some [lis.addr], listener := some lis
      addr := lis.addr, started := true, stopped := false } rest rfl
  simp [Server.runStarts, h1, h2, List.replicate_succ]

/-- C10: a bind failure leaves `started = true` (the flag is set before
the bind and never rolled back), so after the listener-start error every
further `Start` call returns nil immediately with no listener opened and
no address published: the failure is not retryable through the same
instance. -/
theorem start_failure_latches_started (cfg : Config) (e : String)
    (rest : List (Except String Listener)) :
    ((NewServer cfg [WithAddrAssigned]).Start (Except.error e)).1.started = true
    ∧ ((NewServer cfg [WithAddrAssigned]).Start (Except.error e)).1.listener = none
    ∧ ((NewServer cfg [WithAddrAssigned]).Start (Except.error e)).1.AddrAssigned
      = some []
    ∧ ((NewServer cfg [WithAddrAssigned]).Start (Except.error e)).1.runStarts rest
      = (((NewServer cfg [WithAddrAssigned]).Start (Except.error e)).1, 0, 0,
         List.replicate rest.length none) := by
  exact ⟨rfl, rfl, rfl, runStarts_of_started _ rest rfl⟩

/-- C4: `Stop` marks `stopped` and touches nothing else: config,
notifier channel, address and `started` are all preserved; the listener is
closed only when the lifecycle owns it (`shouldCloseListener`), and a
listener installed with `WithListener l false` (ownership declined, first
conjunct) is never closed. -/
theorem stop_frame_and_ownership (srv : Server) (l : Listener) :
    (∀ s : Server, (WithListener l false s).config.shouldCloseListener = false)
    ∧ (srv.Stop).1.stopped = true
    ∧ (srv.Stop).1.config = srv.config
    ∧ (srv.Stop).1.AddrAssigned = srv.AddrAssigned
    ∧ (srv.Stop).1.addr = srv.addr
    ∧ (srv.Stop).1.started = srv.started
    ∧ (srv.config.shouldCloseListener = false → (srv.Stop).1.listener = srv.listener)
    ∧ (srv.config.shouldCloseListener = true → srv.listener = some l →
        (srv.Stop).1.listener = some { l with closed := true }) := by
  refine ⟨fun s => rfl, ?_⟩
  obtain ⟨⟨nm, hh, pp, sc⟩, a, li, ad, st, sp⟩ := srv
  obtain ⟨la, lc⟩ := l
  rcases li with _ | ⟨la0, lc0⟩
  · cases sc <;> simp [Server.Stop]
  · cases sc <;> cases lc0 <;> cases lc <;>
      simp_all [Server.Stop, Listener.Close]

theorem stop_frame_and_ownership_witness :
    (Server.Stop
        { config := { sampleConfig with shouldCloseListener := false }
          AddrAssigned := none, listener := some sampleListener
          addr := "127.0.0.1:8080", started := true, stopped := false }).1.listener
      = some sampleListener
    ∧ (Server.Stop
        { config := sampleConfig, AddrAssigned := none
          listener := some sampleListener, addr := "127.0.0.1:8080"
          started := true, stopped := false }).1.listener
      = some { sampleListener with closed := true } :=
  ⟨(stop_frame_and_ownership
      { config := { sampleConfig with shouldCloseListener := false }
        AddrAssigned := none, listener := some sampleListener
        addr := "127.0.0.1:8080", started := true, stopped := false }
      sampleListener).2.2.2.2.2.2.1 rfl,
   (stop_frame_and_ownership
      { config := sampleConfig, AddrAssigned := none
        listener := some sampleListener, addr := "127.0.0.1:8080"
        started := true, stopped := false }
      sampleListener).2.2.2.2.2.2.2 rfl rfl⟩

/-- C5: on a server that owns an open listener, any number `n ≥ 1` of
`Stop` calls transitions the listener from open to closed exactly once
(the duplicate `Close` calls of later `Stop`s find it already closed and
are discarded, never a fault). -/
theorem stop_closes_listener_exactly_once (srv : Server) (l : Listener) (n : Nat)
    (hl : srv.listener = some l) (ho : l.closed = false)
    (hs : srv.config.shouldCloseListener = true) (hn : 1 ≤ n) :
    (srv.runStops n).2 = 1
    ∧ (srv.runStops n).1.listener = some { l with closed := true } := by
  obtain ⟨m, rfl⟩ : ∃ m, n = m + 1 := ⟨n - 1, by omega⟩
  have h1 := Stop_open_owned srv l hl ho hs
  have h2 := runStops_fix
    { srv with stopped := true, listener := some { l with closed := true } }
    { l with closed := true } m rfl rfl rfl
  simp [Server.runStops, h1, h2]

theorem stop_closes_listener_exactly_once_witness :
    (Server.runStops
        { config := sampleConfig, AddrAssigned := none
          listener := some sampleListener, addr := "127.0.0.1:8080"
          started := true, stopped := false } 3).2 = 1
    ∧ (Server.runStops
        { config := sampleConfig, AddrAssigned := none
          listener := some sampleListener, addr := "127.0.0.1:8080"
          started := true, stopped := false } 3).1.listener
      = some { sampleListener with closed := true } :=
  stop_closes_listener_exactly_once
    { config := sampleConfig, AddrAssigned := none
      listener := some sampleListener, addr := "127.0.0.1:8080"
      started := true, stopped := false } sampleListener 3 rfl rfl rfl
    (by decide)

theorem stop_before_start_safe_witness :
    (NewServer sampleConfig []).listener = none
    ∧ Server.Stop
        { config := sampleConfig, AddrAssigned := none, listener := none
          addr := "", started := false, stopped := false }
      = ({ config := sampleConfig, AddrAssigned := none, listener := none
           addr := "", started := false, stopped := true }, false) :=
  stop_before_start_safe sampleConfig
    { config := sampleConfig, AddrAssigned := none, listener := none
      addr := "", started := false, stopped := false } rfl

/-- C7: `getLimiter` creates at most one limiter per identity — an
existing entry is returned as-is, a missing one is created exactly once
with the fixed registry `(rate, burst)` and found by every later call;
over any whole trace of admission checks from the empty registry each
identity has at most one entry; and checks for one identity neither
change nor influence the entry or admission results of another identity. -/
theorem getLimiter_one_per_identity (r : PerClientRateLimiter) (a b c : String)
    (l : Limiter) (t t2 : ℚ) (R : ℚ) (B : Nat) (trace : List (String × ℚ)) :
    (lookupKey a r.clients = some l → r.getLimiter a = (r, l))
    ∧ (lookupKey a r.clients = none →
        r.getLimiter a
          = ({ r with clients := r.clients ++ [(a, NewLimiter r.rps r.burst)] },
             NewLimiter r.rps r.burst))
    ∧ ((r.getLimiter a).1.getLimiter a = ((r.getLimiter a).1, (r.getLimiter a).2))
    ∧ (List.count c
        ((((NewPerClientRateLimiter R B).runChecks trace).1.clients).map Prod.fst)
        ≤ 1)
    ∧ (a ≠ b → lookupKey b ((r.allowFor a t).1.clients) = lookupKey b r.clients)
    ∧ (a ≠ b → ((r.allowFor a t).1.allowFor b t2).2 = (r.allowFor b t2).2) := by
  refine ⟨getLimiter_eq_some r a l, getLimiter_eq_none r a, ?_, ?_,
    allowFor_lookup_ne r a b t, ?_⟩
  · rcases hl : lookupKey a r.clients with _ | l0
    · rw [getLimiter_eq_none r a hl]
      exact getLimiter_eq_some _ a _ (lookupKey_append_self a _ r.clients hl)
    · rw [getLimiter_eq_some r a l0 hl]
      exact getLimiter_eq_some r a l0 hl
  · have h0 : (((NewPerClientRateLimiter R B).clients).map Prod.fst).Nodup := by
      simp [NewPerClientRateLimiter]
    exact List.nodup_iff_count_le_one.mp (runChecks_keys_nodup _ trace h0) c
  · intro hab
    exact allowFor_congr _ r b t2 (allowFor_params r a t).1 (allowFor_params r a t).2
      (allowFor_lookup_ne r a b t hab)

theorem getLimiter_one_per_identity_witness :
    PerClientRateLimiter.getLimiter
        { clients := [("a", NewLimiter 2 2)], rps := 2, burst := 2 } "a"
      = ({ clients := [("a", NewLimiter 2 2)], rps := 2, burst := 2 },
         NewLimiter 2 2)
    ∧ ((PerClientRateLimiter.allowFor
          { clients := [("a", NewLimiter 2 2)], rps := 2, burst := 2 }
          "a" 0).1.allowFor "b" 0).2
      = (PerClientRateLimiter.allowFor
          { clients := [("a", NewLimiter 2 2)], rps := 2, burst := 2 }
          "b" 0).2 :=
  ⟨(getLimiter_one_per_identity
      { clients := [("a", NewLimiter 2 2)], rps := 2, burst := 2 }
      "a" "b" "c" (NewLimiter 2 2) 0 0 2 2 []).1 (by simp [lookupKey]),
   (getLimiter_one_per_identity
      { clients := [("a", NewLimiter 2 2)], rps := 2, burst := 2 }
      "a" "b" "c" (NewLimiter 2 2) 0 0 2 2 []).2.2.2.2.2 (by decide)⟩

/-- C8: the interceptor reads the client identity from the metadata key
`"client-id"` (first value, sentinel when metadata or the key is absent);
on denial it returns, without invoking the handler, a resource-exhausted
error carrying the identity as structured context; on approval it invokes
the handler with the unmodified context metadata and request and
propagates its result and error unchanged. -/
theorem unary_interceptor_contract {α β : Type} (r : PerClientRateLimiter)
    (md : Option MD) (m : MD) (cid : String) (vs : List String) (t : ℚ)
    (req : α)
    (handler handler2 : Option MD → α → Option β × Option GrpcError) :
    getClientID none = unknownClient
    ∧ (lookupKey "client-id" m = some (cid :: vs) → getClientID (some m) = cid)
    ∧ (lookupKey "client-id" m = none → getClientID (some m) = unknownClient)
    ∧ (rateLimitError (getClientID md)).code = Code.resourceExhausted
    ∧ ("client", getClientID md) ∈ (rateLimitError (getClientID md)).details
    ∧ ((r.allowFor (getClientID md) t).2 = false →
        r.UnaryServerInterceptor md t req handler
          = ((r.allowFor (getClientID md) t).1,
             (none, some (rateLimitError (getClientID md))))
        ∧ r.UnaryServerInterceptor md t req handler
          = r.UnaryServerInterceptor md t req handler2)
    ∧ ((r.allowFor (getClientID md) t).2 = true →
        r.UnaryServerInterceptor md t req handler
          = ((r.allowFor (getClientID md) t).1, handler md req)) := by
  refine ⟨rfl, fun h => ?_, fun h => ?_, rfl, ?_, fun h => ?_, fun h => ?_⟩
  · simp [getClientID, h]
  · simp [getClientID, h]
  · simp [rateLimitError]
  · rw [interceptor_eq, interceptor_eq, h]
    exact ⟨rfl, rfl⟩
  · rw [interceptor_eq, h]
    rfl

theorem unary_interceptor_contract_witness :
    getClientID (some [("client-id", ["alice"])]) = "alice"
    ∧ (PerClientRateLimiter.UnaryServerInterceptor (NewPerClientRateLimiter 2 0)
        (some [("client-id", ["alice"])]) 0 (5 : Nat)
        (fun _ n => (some (n + 1), none))
      = (((NewPerClientRateLimiter 2 0).allowFor
            (getClientID (some [("client-id", ["alice"])])) 0).1,
         (none,
          some (rateLimitError (getClientID (some [("client-id", ["alice"])]))))))
    ∧ (PerClientRateLimiter.UnaryServerInterceptor (NewPerClientRateLimiter 2 2)
        (some [("client-id", ["alice"])]) 0 (5 : Nat)
        (fun _ n => (some (n + 1), none))
      = (((NewPerClientRateLimiter 2 2).allowFor
            (getClientID (some [("client-id", ["alice"])])) 0).1,
         (some 6, none))) :=
  ⟨(unary_interceptor_contract (NewPerClientRateLimiter 2 0)
      (some [("client-id", ["alice"])]) [("client-id", ["alice"])] "alice" [] 0
      (5 : Nat) (fun _ n => (some (n + 1), none))
      (fun _ _ => (none, none))).2.1 (by simp [lookupKey]),
   ((unary_interceptor_contract (NewPerClientRateLimiter 2 0)
      (some [("client-id", ["alice"])]) [("client-id", ["alice"])] "alice" [] 0
      (5 : Nat) (fun _ n => (some (n + 1), none))
      (fun _ _ => (none, none))).2.2.2.2.2.1 (by
        rw [allowFor_ok_none _ _ _ (by simp [lookupKey, NewPerClientRateLimiter])]
        norm_num [NewPerClientRateLimiter, NewLimiter, Limiter.Allow])).1,
   (unary_interceptor_contract (NewPerClientRateLimiter 2 2)
      (some [("client-id", ["alice"])]) [("client-id", ["alice"])] "alice" [] 0
      (5 : Nat) (fun _ n => (some (n + 1), none))
      (fun _ _ => (none, none))).2.2.2.2.2.2 (by
        rw [allowFor_ok_none _ _ _ (by simp [lookupKey, NewPerClientRateLimiter])]
        norm_num [NewPerClientRateLimiter, NewLimiter, Limiter.Allow])⟩

/-- C9: standard token-bucket semantics with rate `R > 0` and burst
`B ≥ 1`: the first `B` immediate checks on a fresh limiter all succeed,
the `(B+1)`-th immediate check fails with the limiter state unchanged
(zero tokens consumed), and after waiting `w ≥ 1/R` seconds one more check
succeeds — exactly one, since a further immediate check fails whenever
`w < 2/R`. -/
theorem token_bucket_burst_refill (R : ℚ) (B : Nat) (w : ℚ)
    (hR : 0 < R) (hB : 1 ≤ B) (hw : 1 / R ≤ w) :
    ((NewLimiter R B).allowN 0 B).2 = List.replicate B true
    ∧ ((NewLimiter R B).allowN 0 B).1.Allow 0
      = (((NewLimiter R B).allowN 0 B).1, false)
    ∧ (((NewLimiter R B).allowN 0 B).1.Allow w).2 = true
    ∧ (w < 2 / R →
        ((((NewLimiter R B).allowN 0 B).1.Allow w).1.Allow w).2 = false) := by
  have hd := allowN_full_drain R B
  refine ⟨by rw [hd], ?_, ?_, fun h2 => ?_⟩
  · rw [hd]
    exact Allow_empty_zero R B
  · rw [hd, Allow_after_refill R B w hR hB hw]
  · rw [hd, Allow_after_refill R B w hR hB hw]
    exact Allow_refill_then_deny R B w hR h2

theorem token_bucket_burst_refill_witness :
    ((NewLimiter 2 2).allowN 0 2).2 = List.replicate 2 true
    ∧ ((NewLimiter 2 2).allowN 0 2).1.Allow 0
      = (((NewLimiter 2 2).allowN 0 2).1, false)
    ∧ (((NewLimiter 2 2).allowN 0 2).1.Allow (3 / 5)).2 = true
    ∧ ((((NewLimiter 2 2).allowN 0 2).1.Allow (3 / 5)).1.Allow (3 / 5)).2
      = false :=
  ⟨(token_bucket_burst_refill 2 2 (3 / 5) (by norm_num) (by norm_num)
      (by norm_num)).1,
   (token_bucket_burst_refill 2 2 (3 / 5) (by norm_num) (by norm_num)
      (by norm_num)).2.1,
   (token_bucket_burst_refill 2 2 (3 / 5) (by norm_num) (by norm_num)
      (by norm_num)).2.2.1,
   (token_bucket_burst_refill 2 2 (3 / 5) (by norm_num) (by norm_num)
      (by norm_num)).2.2.2 (by norm_num)⟩

end Servers
